import Mathlib

/-!
# check: the uptime monitor of `cmd/root.go`

A shallow embedding of `rootCmd.Run` and `sendEmail` from `src/cmd/root.go`,
from the point where the settings are read (line 76) to `viper.WriteConfig()`
(line 213), and theorems about the notification decision and the merge of the
settings.

Conventions of the embedding.

* A Go `string` is a sequence of bytes; it is modelled as `List Char`, one
  `Char` per byte.
* Everything the run asks of the outside world is an explicit input: the
  command line, the loaded config file, the answer of `http.Get`, the log file
  on disk, the answer of `smtplib.SendMail`, the clock.
* `log.Printf` writes one record, ending in a line break, to standard output
  and, once `log.SetOutput(io.MultiWriter(os.Stdout, logFile))` has run, to the
  log file.  Standard output is not kept; the log file is.
* The source has no `Decision` type.  The four names of the specification are
  used as labels of the branches of the source: `Notify` is the branch that
  calls `sendEmail` (line 189), `Blocked` the branch of line 191, `Suppressed`
  the branch of line 177, and `NoAction` every run that ends without reading
  the log (no URL, a transport error, status 200).
-/

namespace Check

/-- A Go string: a sequence of bytes. -/
abbrev Str := List Char

/-! ## Library functions used by the source -/

/-- Go `strings.Contains(s, substr)`: `substr` occurs in `s` as a contiguous
run of bytes.  The empty `substr` occurs in every `s`. -/
def Contains : Str → Str → Bool
  | [], substr => substr.isEmpty
  | c :: s, substr => substr.isPrefixOf (c :: s) || Contains s substr

/-- Go `strings.Split(s, sep)` for a separator of one byte (the source only
splits at the line break): the pieces of `s` between the separators, in order.
A string without separator gives one piece, itself; the result is never
empty. -/
def Split : Str → Char → List Str
  | [], _ => [[]]
  | c :: s, sep =>
    if c = sep then [] :: Split s sep
    else
      match Split s sep with
      | [] => [[c]]
      | l :: ls => (c :: l) :: ls

/-- Lines 171 to 175: `lastLine` is `lines[len(lines)-1]` of the split of the
bytes read, and stays empty when there is no line. -/
def lastLine (buf : Str) : Str :=
  let lines := Split buf '\n'
  if lines.length > 0 then lines.getD (lines.length - 1) [] else []

/-- Lines 161 to 170: the bytes read from the log file, from offset
`max (size - 1024) 0` on, at most 1024 of them. -/
def readTail (data : Str) : Str :=
  let size : Int := data.length
  let start : Int := if size - 1024 < 0 then 0 else size - 1024
  (data.drop start.toNat).take 1024

/-- The last non-empty line of a log tail, in the words of the specification
(section 4.2, step 2a); empty when the tail has no non-empty line.  This is
not what the source computes: the source computes `lastLine`. -/
def lastNonEmptyLine (buf : Str) : Str :=
  (((Split buf '\n').filter (fun l => !l.isEmpty)).getLast?).getD []

/-! ## The outside world -/

/-- The log file on disk: its contents, if the file exists, and what the
process is allowed to do at that path. -/
structure Disk where
  /-- Contents of the file; `none` when there is no such file. -/
  data : Option Str
  /-- The file may be created when it does not exist. -/
  mayCreate : Bool
  /-- The file may be opened for reading. -/
  mayRead : Bool
  /-- The file may be opened for writing. -/
  mayWrite : Bool

/-- Line 94, `os.OpenFile(name, os.O_CREATE|os.O_APPEND|os.O_RDWR, 0666)`: the
disk after a successful open (the file is created, empty, when it did not
exist), `none` when the open fails.  The empty name cannot be opened. -/
def OpenFileAppend (name : Str) (d : Disk) : Option Disk :=
  if name = [] then none
  else
    match d.data with
    | some _ => if d.mayRead && d.mayWrite then some d else none
    | none => if d.mayCreate then some { d with data := some [] } else none

/-- Line 154, `os.OpenFile(name, os.O_RDONLY, 0644)`: the contents of the file
when the open succeeds, `none` when it fails. -/
def OpenFileRead (name : Str) (d : Disk) : Option Str :=
  if name = [] then none
  else
    match d.data with
    | some data => if d.mayRead then some data else none
    | none => none

/-- The arguments of one call of `sendEmail`. -/
structure Email where
  login : Str
  password : Str
  smtp : Str
  port : Str
  sender : Str
  recipient : Str
  subject : Str
  body : Str
  url : Str
  deriving DecidableEq

/-- The arguments of `smtplib.SendMail(addr, auth, from, to, msg)`, the
authentication being `smtplib.PlainAuth("", authUser, authPassword, authHost)`;
`fromAddr` is the argument `from` and `toAddrs` the argument `to`. -/
structure SendMailArgs where
  addr : Str
  authUser : Str
  authPassword : Str
  authHost : Str
  fromAddr : Str
  toAddrs : List Str
  msg : Str
  deriving DecidableEq

/-- What the run is told by the outside world, the log file apart. -/
structure Env where
  /-- The date and time that package `log` puts in front of the record written
  by the call at the given source line. -/
  header : Nat → Str
  /-- Line 274: `time.Now().Format(time.RFC1123Z)`. -/
  date : Str
  /-- The text of the error of the `os.OpenFile` at the given source line,
  when that call fails. -/
  errText : Nat → Str
  /-- The answer of `smtplib.SendMail`: `none` for a nil error, else the text
  of the error. -/
  SendMail : SendMailArgs → Option Str
  /-- Function `filepath.Dir`. -/
  Dir : Str → Str
  /-- Function `filepath.Base`. -/
  Base : Str → Str

/-- The answer of `http.Get(url)`: an error and no response, or a response
with its status code and status text. -/
inductive CheckResult where
  | transportError (err : Str)
  | response (StatusCode : Int) (Status : Str)

/-- The names of the string flags of `init`, which are also the keys of the
config file: every flag is bound to the key of its name by `viper.BindPFlag`. -/
inductive Key where
  | URL | log | author | recipient | config | smtp | port | user | password | subject | body
  deriving DecidableEq, Repr

/-- The command line: for every string flag the value given to it, `none`
when the flag is not on the command line, and the same for `--debug`. -/
structure CommandLine where
  flag : Key → Option Str
  debug : Option Bool

/-- The config file that `viper.ReadInConfig` loaded: for every key its value,
`none` when the file does not have the key (or there is no file). -/
structure ConfigFile where
  value : Key → Option Str
  debug : Option Bool

/-- Call `cmd.Flags().GetString(k)`: the value of the flag, its default (the
empty string) when the flag is not on the command line. -/
def flagGetString (c : CommandLine) (k : Key) : Str :=
  (c.flag k).getD []

/-- Call `viper.GetString(k)` for a key bound to a flag by `viper.BindPFlag`
(lines 245 to 256).  The library looks at the bound flag first and takes its
value when the flag was set on the command line, whatever the value; else it
takes the value of the config file, else the default of the flag (the empty
string). -/
def viperGetString (c : CommandLine) (p : ConfigFile) (k : Key) : Str :=
  match c.flag k with
  | some v => v
  | none => (p.value k).getD []

/-- Call `viper.GetBool("debug")`, the key being bound to `--debug`. -/
def viperGetBool (c : CommandLine) (p : ConfigFile) : Bool :=
  match c.debug with
  | some b => b
  | none => p.debug.getD false

/-! ## The settings -/

/-- The local variables of `Run` that hold the settings, and `debugMode`. -/
structure Settings where
  url : Str
  logFileName : Str
  author : Str
  recipient : Str
  config : Str
  smtp : Str
  port : Str
  user : Str
  password : Str
  subject : Str
  body : Str
  debugMode : Bool

/-- The variable that holds the setting of a key. -/
def Settings.get (s : Settings) : Key → Str
  | .URL => s.url
  | .log => s.logFileName
  | .author => s.author
  | .recipient => s.recipient
  | .config => s.config
  | .smtp => s.smtp
  | .port => s.port
  | .user => s.user
  | .password => s.password
  | .subject => s.subject
  | .body => s.body

/-- Lines 76 to 91: the settings as `viper` gives them, and the log file name
replaced by a non-empty `--log`. -/
def load (c : CommandLine) (p : ConfigFile) : Settings :=
  { url := viperGetString c p .URL
    logFileName :=
      if flagGetString c .log ≠ [] then flagGetString c .log else viperGetString c p .log
    author := viperGetString c p .author
    recipient := viperGetString c p .recipient
    config := viperGetString c p .config
    smtp := viperGetString c p .smtp
    port := viperGetString c p .port
    user := viperGetString c p .user
    password := viperGetString c p .password
    subject := viperGetString c p .subject
    body := viperGetString c p .body
    debugMode := viperGetBool c p }

/-- Lines 110 to 137: every setting that has such a block is replaced by its
flag when the flag is not empty.  There is no block for `author`. -/
def override (c : CommandLine) (s : Settings) : Settings :=
  { s with
    url := if flagGetString c .URL ≠ [] then flagGetString c .URL else s.url
    recipient := if flagGetString c .recipient ≠ [] then flagGetString c .recipient else s.recipient
    config := if flagGetString c .config ≠ [] then flagGetString c .config else s.config
    smtp := if flagGetString c .smtp ≠ [] then flagGetString c .smtp else s.smtp
    port := if flagGetString c .port ≠ [] then flagGetString c .port else s.port
    user := if flagGetString c .user ≠ [] then flagGetString c .user else s.user
    password := if flagGetString c .password ≠ [] then flagGetString c .password else s.password
    subject := if flagGetString c .subject ≠ [] then flagGetString c .subject else s.subject
    body := if flagGetString c .body ≠ [] then flagGetString c .body else s.body }

/-- The merged settings that the check and the notification use. -/
def resolve (c : CommandLine) (p : ConfigFile) : Settings :=
  override c (load c p)

/-! ## The logger -/

/-- Package `log` as the run uses it: the disk, and whether the output of the
logger includes the log file. -/
structure Logger where
  disk : Disk
  toFile : Bool

/-- The record that package `log` writes for a text: the header, the text,
and a line break when the text does not end in one. -/
def record (env : Env) (line : Nat) (text : Str) : Str :=
  env.header line ++ text ++ (if text.getLast? = some '\n' then [] else ['\n'])

/-- One `log.Printf` (or `log.Println`) at a source line: the record is
appended to the log file when the logger writes to it. -/
def Printf (env : Env) (line : Nat) (text : Str) (lg : Logger) : Logger :=
  if lg.toFile then
    { lg with disk := { lg.disk with data := some (lg.disk.data.getD [] ++ record env line text) } }
  else lg

/-- Lines 93 to 102: with a log file name, the file is opened for appending
and added to the output of the logger; when the open fails, or without a
name, the logger keeps writing to standard output only. -/
def attach (logFileName : Str) (d : Disk) : Logger :=
  if logFileName ≠ [] then
    match OpenFileAppend logFileName d with
    | none => { disk := d, toFile := false }
    | some d1 => { disk := d1, toFile := true }
  else { disk := d, toFile := false }

/-- The double quote, as a string. -/
def quote : Str := [Char.ofNat 34]

/-! ## The notification -/

/-- Lines 269 to 272: the message that `sendEmail` builds. -/
def message (e : Email) : Str :=
  "From: ".toList ++ e.sender ++ "\r\n".toList ++
  "To: ".toList ++ e.recipient ++ "\r\n".toList ++
  "Subject: ".toList ++ e.subject ++ e.url ++ "\r\n".toList ++
  "\r\n".toList ++ e.body ++ e.url ++ "\r\n".toList

/-- Lines 267, 268 and 276: the arguments that `sendEmail` passes to
`smtplib.SendMail`. -/
def sendMailArgs (e : Email) : SendMailArgs :=
  { addr := e.smtp ++ ":".toList ++ e.port
    authUser := e.login
    authPassword := e.password
    authHost := e.smtp
    fromAddr := e.login
    toAddrs := [e.recipient]
    msg := message e }

/-- One call of `smtplib.SendMail`: the answer of the outside world, and the
record of the call with the arguments that were passed. -/
def SendMail (env : Env) (call : SendMailArgs) : Option Str × List SendMailArgs :=
  (env.SendMail call, [call])

/-- Function `sendEmail`: the logger after the records written about the
mail, and the calls of `smtplib.SendMail` that the function made: the one
call of line 276. -/
def sendEmail (debugMode : Bool) (env : Env) (e : Email) (lg : Logger) :
    Logger × List SendMailArgs :=
  let lg1 :=
    if debugMode then
      Printf env 264
        ("Sending email with ".toList ++ e.login ++ " at server ".toList ++ e.smtp ++
          ":".toList ++ e.port ++ " from ".toList ++ e.sender ++ " to ".toList ++ e.recipient ++
          " with subject: ".toList ++ e.subject ++ " about ".toList ++ e.body ++ ": ".toList ++
          e.url) lg
    else lg
  let answer := SendMail env (sendMailArgs e)
  match answer.1 with
  | some err =>
    (Printf env 279 (env.date ++ " - ".toList ++ err ++ ": ".toList ++ e.url ++ "\n".toList)
      (Printf env 278 ("Error sending email: ".toList ++ err) lg1), answer.2)
  | none =>
    (Printf env 281
      (env.date ++ " - Email sent successfully: ".toList ++ e.subject ++ "\n".toList) lg1,
      answer.2)

/-- The labels of the branches of the notification logic, named as in the
specification. -/
inductive Decision where
  | NoAction | Suppressed | Notify | Blocked
  deriving DecidableEq, Repr

/-- What one run did. -/
structure Outcome where
  /-- The branch taken; `none` when the run stopped before taking one. -/
  decision : Option Decision
  /-- The calls of `sendEmail`, in order. -/
  emails : List Email
  /-- The calls of `smtplib.SendMail` made by `sendEmail`, in order. -/
  sent : List SendMailArgs
  /-- The bytes read from the log file (`buf[:n]`, line 170), when read. -/
  tail : Option Str
  /-- The log file when the run ends. -/
  disk : Disk
  /-- The run stopped with a run-time panic. -/
  panicked : Bool
  /-- The run reached `viper.WriteConfig()` (line 213). -/
  wroteConfig : Bool

/-- Lines 201 to 207: the two records of debug mode about the config file to
write, when there is one. -/
def debugConfig (s : Settings) (env : Env) (lg : Logger) : Logger :=
  if s.config ≠ [] then
    if s.debugMode then
      Printf env 206 ("Filename of config: ".toList ++ env.Base s.config ++ "\n".toList)
        (Printf env 205 ("Path to config: ".toList ++ env.Dir s.config ++ "\n".toList) lg)
    else lg
  else lg

/-- Lines 200 to 213: the end of a run that did not stop early. -/
def finish (s : Settings) (env : Env) (lg : Logger) (d : Decision) (emails : List Email)
    (sent : List SendMailArgs) (tail : Option Str) : Outcome :=
  { decision := some d, emails := emails, sent := sent, tail := tail,
    disk := (debugConfig s env lg).disk, panicked := false, wroteConfig := true }

/-- The condition of line 185: everything `sendEmail` needs is there. -/
def complete (s : Settings) : Prop :=
  s.user ≠ [] ∧ s.password ≠ [] ∧ s.smtp ≠ [] ∧ s.port ≠ [] ∧ s.recipient ≠ [] ∧ s.subject ≠ []

instance (s : Settings) : Decidable (complete s) := by
  unfold complete
  exact inferInstance

/-- Lines 186 to 189: the arguments of the call of `sendEmail`, the author
being replaced by the user when it is empty. -/
def notification (s : Settings) : Email :=
  { login := s.user
    password := s.password
    smtp := s.smtp
    port := s.port
    sender := if s.author = [] then s.user else s.author
    recipient := s.recipient
    subject := s.subject
    body := s.body
    url := s.url }

/-- Lines 160 to 213, for the contents `data` of the log file opened at line
154: the tail is read, its last line is searched for the subject, and the
email is sent, or not. -/
def notify (s : Settings) (env : Env) (lg : Logger) (data : Str) : Outcome :=
  let buf := readTail data
  if Contains (lastLine buf) s.subject then
    let lg1 :=
      if s.debugMode then
        Printf env 179
          ("Subject ".toList ++ quote ++ s.subject ++ quote ++
            " found in the last log entry. Not sending email notification.".toList) lg
      else lg
    finish s env lg1 .Suppressed [] [] (some buf)
  else
    let lg1 :=
      if s.debugMode then
        Printf env 183
          ("Subject ".toList ++ quote ++ s.subject ++ quote ++
            " not found in the last log entry. Sending email...".toList) lg
      else lg
    if complete s then
      let mail := sendEmail s.debugMode env (notification s) lg1
      finish s env mail.1 .Notify [notification s] mail.2 (some buf)
    else
      let lg2 :=
        if s.debugMode then
          Printf env 193
            ("Cannot send email. Please provide all required information, like user, password, smtp server, smtp port, recipient email and subject.\n".toList)
            lg1
        else lg1
      finish s env lg2 .Blocked [] [] (some buf)

/-- Lines 147 to 153: the records of debug mode about a response whose status
code is not 200. -/
def debugResponse (s : Settings) (env : Env) (Status : Str) (lg : Logger) : Logger :=
  if s.debugMode then
    Printf env 152 ("Website not reachable: ".toList ++ Status)
      (Printf env 148 ("Website response: ".toList ++ Status) lg)
  else lg

/-- Lines 139 to 213: the check, the notification logic and the end of the
run, for the merged settings `s`.

When the log file cannot be opened for reading (line 154), the error is
logged and the run goes on with a nil `logFile`: `logFile.Stat()` then
returns a nil `FileInfo`, and `stat.Size()` (line 164) is a call on a nil
interface value, a run-time panic. -/
def check (s : Settings) (chk : CheckResult) (env : Env) (lg : Logger) : Outcome :=
  if s.url = [] then
    finish s env
      (Printf env 140
        ("A URL is required to check. Neither a config file entry nor a command line flag was provided.\nRemaining configuration will however be saved to the config file.".toList)
        lg)
      .NoAction [] [] none
  else
    match chk with
    | .transportError err =>
      finish s env (Printf env 145 ("Failed to get website: ".toList ++ err) lg) .NoAction [] []
        none
    | .response StatusCode Status =>
      if StatusCode ≠ 200 then
        let lg1 := debugResponse s env Status lg
        match OpenFileRead s.logFileName lg1.disk with
        | none =>
          let lg2 := Printf env 156 ("Error opening log file: ".toList ++ env.errText 154) lg1
          { decision := none, emails := [], sent := [], tail := none, disk := lg2.disk,
            panicked := true, wroteConfig := false }
        | some data => notify s env lg1 data
      else
        finish s env
          (if s.debugMode then Printf env 148 ("Website response: ".toList ++ Status) lg else lg)
          .NoAction [] [] none

/-- Lines 104 to 108: the two records of debug mode, with the settings as
they are before the flags are applied. -/
def debugSettings (pre : Settings) (env : Env) (lg : Logger) : Logger :=
  if pre.debugMode then
    Printf env 106
      ("URL: ".toList ++ pre.url ++ "\nLog: ".toList ++ pre.logFileName ++
        "\nRecipient: ".toList ++ pre.recipient ++ "\nConfig: ".toList ++ pre.config ++
        "\nSMTP: ".toList ++ pre.smtp ++ "\nPort: ".toList ++ pre.port ++
        "\nUser: ".toList ++ pre.user ++ "\nSubject: ".toList ++ pre.subject ++
        "\nBody: ".toList ++ pre.body ++ "\n".toList)
      (Printf env 105 "Debug mode is enabled".toList lg)
  else lg

/-- Function `rootCmd.Run`, lines 76 to 213: one run of the program, for a
command line, a loaded config file, the answer of `http.Get`, the outside
world and the log file on disk. -/
def Run (c : CommandLine) (p : ConfigFile) (chk : CheckResult) (env : Env) (d : Disk) :
    Outcome :=
  let pre := load c p
  let lg := debugSettings pre env (attach pre.logFileName d)
  check (override c pre) chk env lg

/-! ## Notions used in the statements -/

/-- The contents are empty or end in a line break: every line is terminated. -/
def Terminated (x : Str) : Prop := x = [] ∨ x.getLast? = some '\n'

instance (x : Str) : Decidable (Terminated x) := by
  unfold Terminated
  exact inferInstance

/-- The logger `lg1` is the logger `lg` after some records, maybe none, were
written: what the process may do with the file is the same, and the file is
unchanged or, when the logger writes to it, ends in a line break. -/
def Wrote (lg lg1 : Logger) : Prop :=
  lg1.toFile = lg.toFile ∧ lg1.disk.mayCreate = lg.disk.mayCreate ∧
  lg1.disk.mayRead = lg.disk.mayRead ∧ lg1.disk.mayWrite = lg.disk.mayWrite ∧
  (lg1.disk.data = lg.disk.data ∨
    (lg.toFile = true ∧ ∃ x, lg1.disk.data = some x ∧ x.getLast? = some '\n'))

/-- The logger at line 154, when the log file is opened for reading: the log
file may have been created and, in debug mode, four records were written. -/
def atRead (c : CommandLine) (p : ConfigFile) (Status : Str) (env : Env) (d : Disk) : Logger :=
  debugResponse (resolve c p) env Status
    (debugSettings (load c p) env (attach (load c p).logFileName d))

/-- The log file at the path `name` can be opened for reading at line 154:
there is a name, the file may be read, and it exists or was created at line
94. -/
def Readable (name : Str) (d : Disk) : Prop :=
  name ≠ [] ∧ d.mayRead = true ∧ (d.data ≠ none ∨ d.mayCreate = true)

instance (name : Str) (d : Disk) : Decidable (Readable name d) := by
  unfold Readable
  exact inferInstance

/-! ## Concrete inputs -/

/-- A command line that gives every setting but the author and the config
file: `check -U http://x -l check.log -r ops@x -s mail.x -o 25 -u mon@x -p pw
-j Down -b "Site down: "`. -/
def cmdDown : CommandLine :=
  { flag := fun k =>
      match k with
      | .URL => some "http://x".toList
      | .log => some "check.log".toList
      | .author => none
      | .recipient => some "ops@x".toList
      | .config => none
      | .smtp => some "mail.x".toList
      | .port => some "25".toList
      | .user => some "mon@x".toList
      | .password => some "pw".toList
      | .subject => some "Down".toList
      | .body => some "Site down: ".toList
    debug := none }

/-- The command line `cmdDown` with `--debug`. -/
def cmdDownDebug : CommandLine := { cmdDown with debug := some true }

/-- The command line `cmdDown` without `-l`: no log file is configured. -/
def cmdNoLog : CommandLine :=
  { cmdDown with flag := fun k => if k = .log then none else cmdDown.flag k }

/-- The command line `cmdDown` without `-p`: the password is empty. -/
def cmdNoPassword : CommandLine :=
  { cmdDown with flag := fun k => if k = .password then none else cmdDown.flag k }

/-- The command line `cmdDown` without `-j`: the subject is empty. -/
def cmdNoSubject : CommandLine :=
  { cmdDown with flag := fun k => if k = .subject then none else cmdDown.flag k }

/-- The command line `check -U http://x`. -/
def cmdURL : CommandLine :=
  { flag := fun k => if k = .URL then some "http://x".toList else none, debug := none }

/-- The command line `check -j ""`: the subject flag is given, and empty. -/
def cmdEmptySubject : CommandLine :=
  { flag := fun k => if k = .subject then some [] else none, debug := none }

/-- No config file, or an empty one. -/
def noConfig : ConfigFile := { value := fun _ => none, debug := none }

/-- A config file with an empty URL and the subject `Down`. -/
def configDown : ConfigFile :=
  { value := fun k =>
      match k with
      | .URL => some []
      | .subject => some "Down".toList
      | _ => none
    debug := none }

/-- An outside world where the mail is sent without error. -/
def envOk : Env :=
  { header := fun _ => "2024/01/02 03:04:05 ".toList
    date := "Tue, 02 Jan 2024 03:04:05 +0000".toList
    errText := fun _ => "open : no such file or directory".toList
    SendMail := fun _ => none
    Dir := id
    Base := id }

/-- A log file, or none, in a directory where everything is allowed. -/
def diskWith (data : Option Str) : Disk :=
  { data := data, mayCreate := true, mayRead := true, mayWrite := true }

/-- A log file that may be read and may not be written. -/
def diskReadOnly (data : Str) : Disk :=
  { data := some data, mayCreate := true, mayRead := true, mayWrite := false }

/-- A response with status 503. -/
def status503 : CheckResult := .response 503 "503 Service Unavailable".toList

/-- A transport error. -/
def refused : CheckResult :=
  .transportError "Get \"http://x\": dial tcp: connect: connection refused".toList

/-! ## Strings: `Contains`, `Split`, the last line, the tail read -/

theorem Contains_empty (s : Str) : Contains s [] = true := by
  cases s <;> simp [Contains]

theorem Contains_nil_left (t : Str) (h : t ≠ []) : Contains [] t = false := by
  cases t with
  | nil => exact absurd rfl h
  | cons a t => simp [Contains]

/-- The model of `strings.Contains` is the relation "is a contiguous part of". -/
theorem Contains_iff_isInfix (s t : Str) : Contains s t = true ↔ t <:+: s := by
  induction s with
  | nil => cases t <;> simp [Contains]
  | cons c s ih =>
    rw [Contains, Bool.or_eq_true, ih, List.infix_cons_iff, List.isPrefixOf_iff_prefix]

theorem Split_ne_nil (s : Str) (sep : Char) : Split s sep ≠ [] := by
  cases s with
  | nil => simp [Split]
  | cons c s =>
    rw [Split]
    split_ifs
    · simp
    · split <;> simp

/-- The split of a string with a separator in it: the split of what stands
before the separator, then the split of what stands after it. -/
theorem Split_append_sep (a b : Str) (sep : Char) :
    Split (a ++ sep :: b) sep = Split a sep ++ Split b sep := by
  induction a with
  | nil => simp [Split]
  | cons c a ih =>
    rw [List.cons_append, Split, Split, ih]
    by_cases h : c = sep
    · simp [h]
    · rw [if_neg h, if_neg h]
      cases hs : Split a sep with
      | nil => exact absurd hs (Split_ne_nil a sep)
      | cons l ls => simp

theorem Split_of_not_mem (b : Str) (sep : Char) (h : sep ∉ b) : Split b sep = [b] := by
  induction b with
  | nil => simp [Split]
  | cons c b ih =>
    have hc : ¬ c = sep := fun e => h (by simp [e])
    have hb : sep ∉ b := fun e => h (by simp [e])
    rw [Split, if_neg hc, ih hb]

theorem lastLine_eq_getLast? (buf : Str) : lastLine buf = ((Split buf '\n').getLast?).getD [] := by
  have h : 0 < (Split buf '\n').length := List.length_pos.mpr (Split_ne_nil buf '\n')
  simp only [lastLine, gt_iff_lt, h, if_true, List.getD_eq_getElem?_getD, List.getLast?_eq_getElem?]

/-- The last line is what follows the last line break. -/
theorem lastLine_append_newline (a b : Str) : lastLine (a ++ '\n' :: b) = lastLine b := by
  rw [lastLine_eq_getLast?, lastLine_eq_getLast?, Split_append_sep, List.getLast?_append]
  cases h : (Split b '\n').getLast? with
  | none => exact absurd (List.getLast?_eq_none_iff.mp h) (Split_ne_nil b '\n')
  | some x => simp

theorem lastLine_of_not_mem (b : Str) (h : '\n' ∉ b) : lastLine b = b := by
  rw [lastLine_eq_getLast?, Split_of_not_mem b '\n' h]
  simp

theorem lastLine_nil : lastLine [] = [] := lastLine_of_not_mem [] (by simp)

theorem lastLine_of_terminated (x : Str) (h : Terminated x) : lastLine x = [] := by
  rcases h with rfl | h
  · exact lastLine_nil
  · obtain ⟨ys, rfl⟩ := List.getLast?_eq_some_iff.mp h
    rw [lastLine_append_newline, lastLine_nil]

/-- Every string is the part before its last line break, the line break and
a last line without line break, or has no line break at all. -/
theorem exists_last_newline (x : Str) :
    '\n' ∉ x ∨ ∃ a b, x = a ++ '\n' :: b ∧ '\n' ∉ b := by
  induction x with
  | nil => left; simp
  | cons c x ih =>
    rcases ih with h | ⟨a, b, rfl, hb⟩
    · by_cases hc : c = '\n'
      · right; exact ⟨[], x, by simp [hc], h⟩
      · left
        simp only [List.mem_cons, not_or]
        exact ⟨fun e => hc e.symm, h⟩
    · right; exact ⟨c :: a, b, by simp, hb⟩

theorem terminated_of_lastLine_eq_nil (x : Str) (h : lastLine x = []) : Terminated x := by
  rcases exists_last_newline x with hx | ⟨a, b, rfl, hb⟩
  · left
    rw [lastLine_of_not_mem x hx] at h
    exact h
  · right
    rw [lastLine_append_newline, lastLine_of_not_mem b hb] at h
    subst h
    exact List.getLast?_concat a

/-- The bytes read are the last 1024 bytes of the file, or the whole file when
it is shorter. -/
theorem readTail_eq_drop (data : Str) : readTail data = data.drop (data.length - 1024) := by
  unfold readTail
  have h : (if (data.length : Int) - 1024 < 0 then (0 : Int) else (data.length : Int) - 1024).toNat
      = data.length - 1024 := by
    split_ifs <;> omega
  simp only [h]
  apply List.take_of_length_le
  rw [List.length_drop]
  omega

theorem readTail_getLast? (data : Str) : (readTail data).getLast? = data.getLast? := by
  rw [readTail_eq_drop, List.getLast?_drop]
  split_ifs with h
  · have : data = [] := by
      apply List.eq_nil_of_length_eq_zero
      omega
    simp [this]
  · rfl

theorem readTail_eq_nil_iff (data : Str) : readTail data = [] ↔ data = [] := by
  rw [← List.getLast?_eq_none_iff, readTail_getLast?, List.getLast?_eq_none_iff]

theorem terminated_readTail (data : Str) : Terminated (readTail data) ↔ Terminated data := by
  unfold Terminated
  rw [readTail_eq_nil_iff, readTail_getLast?]

theorem lastLine_readTail_of_terminated (data : Str) (h : Terminated data) :
    lastLine (readTail data) = [] :=
  lastLine_of_terminated _ ((terminated_readTail data).mpr h)

/-- The last non-empty line is the last line, when the last line is not
empty. -/
theorem lastNonEmptyLine_eq_lastLine (buf : Str) (h : lastLine buf ≠ []) :
    lastNonEmptyLine buf = lastLine buf := by
  rw [lastLine_eq_getLast?] at h ⊢
  unfold lastNonEmptyLine
  cases hl : (Split buf '\n').getLast? with
  | none => exact absurd (List.getLast?_eq_none_iff.mp hl) (Split_ne_nil buf '\n')
  | some x =>
    rw [hl] at h
    obtain ⟨ys, hys⟩ := List.getLast?_eq_some_iff.mp hl
    have hx : x ≠ [] := by simpa using h
    rw [hys, List.filter_append]
    simp [hx]

theorem lastNonEmptyLine_of_not_terminated (buf : Str) (h : buf.getLast? ≠ some '\n') :
    lastNonEmptyLine buf = lastLine buf := by
  by_cases hl : lastLine buf = []
  · rcases terminated_of_lastLine_eq_nil buf hl with rfl | h2
    · rfl
    · exact absurd h2 h
  · exact lastNonEmptyLine_eq_lastLine buf hl

/-- No piece of a split holds the separator. -/
theorem Split_mem_no_sep (s : Str) (sep : Char) : ∀ l ∈ Split s sep, sep ∉ l := by
  induction s with
  | nil => simp [Split]
  | cons c s ih =>
    rw [Split]
    by_cases h : c = sep
    · rw [if_pos h]
      intro l hl
      rcases List.mem_cons.mp hl with rfl | hl
      · simp
      · exact ih l hl
    · rw [if_neg h]
      cases hs : Split s sep with
      | nil => simpa using fun e => h e.symm
      | cons x xs =>
        rw [hs] at ih
        intro l hl
        rcases List.mem_cons.mp hl with rfl | hl
        · intro hm
          rcases List.mem_cons.mp hm with e | hm
          · exact h e.symm
          · exact ih x (List.mem_cons_self _ _) hm
        · exact ih l (List.mem_cons_of_mem _ hl)

/-- The pieces of a split, joined by the separator, give the string back. -/
theorem intercalate_Split (s : Str) (sep : Char) : [sep].intercalate (Split s sep) = s := by
  induction s with
  | nil => simp [Split, List.intercalate]
  | cons c s ih =>
    rw [Split]
    by_cases h : c = sep
    · rw [if_pos h]
      cases hs : Split s sep with
      | nil => exact absurd hs (Split_ne_nil s sep)
      | cons x xs =>
        rw [hs] at ih
        simp only [List.intercalate, List.intersperse_cons_cons, List.flatten_cons] at ih ⊢
        rw [ih, h]
        rfl
    · rw [if_neg h]
      cases hs : Split s sep with
      | nil => exact absurd hs (Split_ne_nil s sep)
      | cons x xs =>
        rw [hs] at ih
        cases xs with
        | nil =>
          simp only [List.intercalate, List.intersperse_single, List.flatten_cons, List.flatten_nil,
            List.append_nil] at ih ⊢
          rw [ih]
        | cons y ys =>
          simp only [List.intercalate, List.intersperse_cons_cons, List.flatten_cons,
            List.cons_append] at ih ⊢
          rw [ih]

/-! ## The logger and the log file -/

/-- Every record of package `log` ends in a line break. -/
theorem record_getLast? (env : Env) (line : Nat) (text : Str) :
    (record env line text).getLast? = some '\n' := by
  unfold record
  by_cases h : text.getLast? = some '\n'
  · rw [if_pos h, List.append_nil, List.getLast?_append, h]
    rfl
  · rw [if_neg h, List.getLast?_append]
    rfl

theorem Wrote.refl (lg : Logger) : Wrote lg lg :=
  ⟨rfl, rfl, rfl, rfl, Or.inl rfl⟩

theorem Wrote.trans {a b c : Logger} (h1 : Wrote a b) (h2 : Wrote b c) : Wrote a c := by
  obtain ⟨f1, c1, r1, w1, d1⟩ := h1
  obtain ⟨f2, c2, r2, w2, d2⟩ := h2
  refine ⟨f2.trans f1, c2.trans c1, r2.trans r1, w2.trans w1, ?_⟩
  rcases d2 with e2 | ⟨t2, x, hx, hl⟩
  · rcases d1 with e1 | h
    · exact Or.inl (e2.trans e1)
    · right
      obtain ⟨t1, x, hx, hl⟩ := h
      exact ⟨t1, x, e2.trans hx, hl⟩
  · exact Or.inr ⟨f1 ▸ t2, x, hx, hl⟩

theorem Wrote_Printf (env : Env) (line : Nat) (text : Str) (lg : Logger) :
    Wrote lg (Printf env line text lg) := by
  unfold Printf
  by_cases h : lg.toFile = true
  · rw [if_pos h]
    refine ⟨rfl, rfl, rfl, rfl, Or.inr ⟨h, _, rfl, ?_⟩⟩
    rw [List.getLast?_append, record_getLast?]
    rfl
  · rw [if_neg h]
    exact Wrote.refl lg

theorem Wrote_ite (b : Bool) (env : Env) (line : Nat) (text : Str) (lg : Logger) :
    Wrote lg (if b = true then Printf env line text lg else lg) := by
  split_ifs
  · exact Wrote_Printf env line text lg
  · exact Wrote.refl lg

theorem Wrote_debugSettings (pre : Settings) (env : Env) (lg : Logger) :
    Wrote lg (debugSettings pre env lg) := by
  unfold debugSettings
  split_ifs
  · exact (Wrote_Printf env 105 _ lg).trans (Wrote_Printf env 106 _ _)
  · exact Wrote.refl lg

theorem Wrote_debugResponse (s : Settings) (env : Env) (Status : Str) (lg : Logger) :
    Wrote lg (debugResponse s env Status lg) := by
  unfold debugResponse
  split_ifs
  · exact (Wrote_Printf env 148 _ lg).trans (Wrote_Printf env 152 _ _)
  · exact Wrote.refl lg

theorem Wrote_sendEmail (b : Bool) (env : Env) (e : Email) (lg : Logger) :
    Wrote lg (sendEmail b env e lg).1 := by
  unfold sendEmail SendMail
  have h1 := Wrote_ite b env 264
    ("Sending email with ".toList ++ e.login ++ " at server ".toList ++ e.smtp ++
      ":".toList ++ e.port ++ " from ".toList ++ e.sender ++ " to ".toList ++ e.recipient ++
      " with subject: ".toList ++ e.subject ++ " about ".toList ++ e.body ++ ": ".toList ++
      e.url) lg
  simp only []
  cases env.SendMail (sendMailArgs e) with
  | none => exact h1.trans (Wrote_Printf env 281 _ _)
  | some err => exact h1.trans ((Wrote_Printf env 278 _ _).trans (Wrote_Printf env 279 _ _))

/-- Function `sendEmail` calls `smtplib.SendMail` exactly once, with the
arguments built from its own. -/
theorem sendEmail_sent (b : Bool) (env : Env) (e : Email) (lg : Logger) :
    (sendEmail b env e lg).2 = [sendMailArgs e] := by
  unfold sendEmail SendMail
  simp only []
  cases env.SendMail (sendMailArgs e) <;> rfl

theorem Wrote_debugConfig (s : Settings) (env : Env) (lg : Logger) :
    Wrote lg (debugConfig s env lg) := by
  unfold debugConfig
  split_ifs
  · exact (Wrote_Printf env 205 _ lg).trans (Wrote_Printf env 206 _ _)
  · exact Wrote.refl lg
  · exact Wrote.refl lg

theorem Wrote_atRead (c : CommandLine) (p : ConfigFile) (Status : Str) (env : Env) (d : Disk) :
    Wrote (attach (load c p).logFileName d) (atRead c p Status env d) :=
  (Wrote_debugSettings _ env _).trans (Wrote_debugResponse _ env Status _)

theorem OpenFileRead_eq_some_iff (name : Str) (d : Disk) (data : Str) :
    OpenFileRead name d = some data ↔ name ≠ [] ∧ d.mayRead = true ∧ d.data = some data := by
  unfold OpenFileRead
  by_cases hn : name = []
  · simp [hn]
  · cases hd : d.data with
    | none => simp [hn]
    | some x =>
      by_cases hr : d.mayRead = true
      · simp [hn, hr]
      · simp [hn, hr]

/-- Lines 93 to 102 leave the file as it is, or create it, empty. -/
theorem attach_disk (name : Str) (d : Disk) :
    (attach name d).disk.mayRead = d.mayRead ∧
    ((attach name d).disk.data = d.data ∨
      (d.data = none ∧ d.mayCreate = true ∧ name ≠ [] ∧ (attach name d).disk.data = some [])) ∧
    ((attach name d).toFile = false → (attach name d).disk = d) := by
  unfold attach OpenFileAppend
  by_cases hn : name = []
  · simp [hn]
  · cases hd : d.data with
    | none =>
      by_cases hc : d.mayCreate = true
      · simp [hn, hd, hc]
      · simp [hn, hd, hc]
    | some x =>
      by_cases hr : (d.mayRead && d.mayWrite) = true
      · simp [hn, hd, hr]
      · simp [hn, hd, hr]

theorem attach_data_none_iff (name : Str) (d : Disk) :
    (attach name d).disk.data = none ↔ d.data = none ∧ (name = [] ∨ d.mayCreate = false) := by
  unfold attach OpenFileAppend
  by_cases hn : name = []
  · simp [hn]
  · cases hd : d.data with
    | none =>
      by_cases hc : d.mayCreate = true
      · simp [hn, hd, hc]
      · simp [hn, hd, hc]
    | some x =>
      by_cases hr : (d.mayRead && d.mayWrite) = true
      · simp [hn, hd, hr]
      · simp [hn, hd, hr]

/-- What the file holds when it is opened for reading at line 154: what it
held after line 102, or something that ends in a line break. -/
theorem atRead_disk (c : CommandLine) (p : ConfigFile) (Status : Str) (env : Env) (d : Disk) :
    (atRead c p Status env d).disk.mayRead = d.mayRead ∧
    ((atRead c p Status env d).disk.data = (attach (resolve c p).logFileName d).disk.data ∨
      ∃ x, (atRead c p Status env d).disk.data = some x ∧ x.getLast? = some '\n') := by
  obtain ⟨_, _, hr, _, hd⟩ := Wrote_atRead c p Status env d
  refine ⟨hr.trans (attach_disk _ d).1, ?_⟩
  rcases hd with h | ⟨_, x, hx, hl⟩
  · exact Or.inl h
  · exact Or.inr ⟨x, hx, hl⟩

theorem atRead_data_none_iff (c : CommandLine) (p : ConfigFile) (Status : Str) (env : Env)
    (d : Disk) :
    (atRead c p Status env d).disk.data = none ↔
      (attach (resolve c p).logFileName d).disk.data = none := by
  obtain ⟨_, _, _, _, hd⟩ := Wrote_atRead c p Status env d
  constructor
  · intro h
    rcases hd with e | ⟨_, x, hx, _⟩
    · exact e ▸ h
    · rw [h] at hx
      cases hx
  · intro h
    rcases hd with e | ⟨ht, x, hx, _⟩
    · exact e.trans h
    · exfalso
      have h0 := (attach_disk (resolve c p).logFileName d).2.1
      rcases h0 with h0 | ⟨_, _, _, h0⟩
      · have h1 := (attach_data_none_iff (resolve c p).logFileName d).mp h
        have h2 : (attach (resolve c p).logFileName d).toFile = false := by
          unfold attach OpenFileAppend
          rcases h1 with ⟨hdn, hn | hc⟩
          · simp [hn]
          · by_cases hn : (resolve c p).logFileName = []
            · simp [hn]
            · simp [hn, hdn, hc]
        rw [show (load c p).logFileName = (resolve c p).logFileName from rfl] at ht
        rw [h2] at ht
        cases ht
      · rw [h] at h0
        cases h0

/-- The open of line 154 succeeds exactly for a readable log file. -/
theorem OpenFileRead_atRead_isSome (c : CommandLine) (p : ConfigFile) (Status : Str) (env : Env)
    (d : Disk) :
    (∃ data, OpenFileRead (resolve c p).logFileName (atRead c p Status env d).disk = some data) ↔
      Readable (resolve c p).logFileName d := by
  unfold Readable
  constructor
  · rintro ⟨data, h⟩
    obtain ⟨hn, hr, hd⟩ := (OpenFileRead_eq_some_iff _ _ _).mp h
    refine ⟨hn, (atRead_disk c p Status env d).1 ▸ hr, ?_⟩
    by_contra hcon
    push_neg at hcon
    have h1 : (atRead c p Status env d).disk.data = none :=
      (atRead_data_none_iff c p Status env d).mpr
        ((attach_data_none_iff _ d).mpr ⟨hcon.1, Or.inr (by simpa using hcon.2)⟩)
    rw [h1] at hd
    cases hd
  · rintro ⟨hn, hr, hd⟩
    cases hx : (atRead c p Status env d).disk.data with
    | none =>
      exfalso
      have h1 := (attach_data_none_iff _ d).mp ((atRead_data_none_iff c p Status env d).mp hx)
      rcases hd with hd | hd
      · exact hd h1.1
      · rcases h1.2 with h2 | h2
        · exact hn h2
        · rw [hd] at h2
          cases h2
    | some x =>
      exact ⟨x, (OpenFileRead_eq_some_iff _ _ _).mpr
        ⟨hn, ((atRead_disk c p Status env d).1).trans hr, hx⟩⟩

theorem OpenFileRead_atRead_of_not_readable (c : CommandLine) (p : ConfigFile) (Status : Str)
    (env : Env) (d : Disk) (h : ¬ Readable (resolve c p).logFileName d) :
    OpenFileRead (resolve c p).logFileName (atRead c p Status env d).disk = none := by
  cases hx : OpenFileRead (resolve c p).logFileName (atRead c p Status env d).disk with
  | none => rfl
  | some data => exact absurd ((OpenFileRead_atRead_isSome c p Status env d).mp ⟨data, hx⟩) h

/-! ## The paths of a run -/

theorem notify_tail (s : Settings) (env : Env) (lg : Logger) (data : Str) :
    (notify s env lg data).tail = some (readTail data) := by
  unfold notify
  simp only []
  split_ifs <;> rfl

theorem notify_finished (s : Settings) (env : Env) (lg : Logger) (data : Str) :
    (notify s env lg data).panicked = false ∧ (notify s env lg data).wroteConfig = true := by
  unfold notify
  simp only []
  split_ifs <;> exact ⟨rfl, rfl⟩

theorem notify_suppressed (s : Settings) (env : Env) (lg : Logger) (data : Str)
    (h : Contains (lastLine (readTail data)) s.subject = true) :
    (notify s env lg data).decision = some .Suppressed ∧ (notify s env lg data).emails = [] := by
  unfold notify
  simp only [h, if_true]
  exact ⟨rfl, rfl⟩

theorem notify_notify (s : Settings) (env : Env) (lg : Logger) (data : Str)
    (h : Contains (lastLine (readTail data)) s.subject = false) (hc : complete s) :
    (notify s env lg data).decision = some .Notify ∧
      (notify s env lg data).emails = [notification s] := by
  unfold notify
  simp only [h, hc, if_true, Bool.false_eq_true, if_false]
  exact ⟨rfl, rfl⟩

theorem notify_blocked (s : Settings) (env : Env) (lg : Logger) (data : Str)
    (h : Contains (lastLine (readTail data)) s.subject = false) (hc : ¬ complete s) :
    (notify s env lg data).decision = some .Blocked ∧ (notify s env lg data).emails = [] := by
  unfold notify
  simp only [h, hc, Bool.false_eq_true, if_false]
  exact ⟨rfl, rfl⟩

/-- The branch taken after the log was read, seen from its result. -/
theorem notify_decision_notify (s : Settings) (env : Env) (lg : Logger) (data : Str)
    (h : (notify s env lg data).decision = some .Notify) :
    Contains (lastLine (readTail data)) s.subject = false ∧ complete s := by
  cases hc : Contains (lastLine (readTail data)) s.subject with
  | true =>
    rw [(notify_suppressed s env lg data hc).1] at h
    cases h
  | false =>
    refine ⟨rfl, ?_⟩
    by_contra hn
    rw [(notify_blocked s env lg data hc hn).1] at h
    cases h

theorem finish_disk_eq (s : Settings) (env : Env) (lg : Logger) (d : Decision) (es : List Email)
    (ms : List SendMailArgs) (t : Option Str) :
    (finish s env lg d es ms t).disk = (debugConfig s env lg).disk := rfl

theorem notify_disk (s : Settings) (env : Env) (lg : Logger) (data : Str) :
    ∃ lg1, Wrote lg lg1 ∧ (notify s env lg data).disk = lg1.disk := by
  unfold notify
  simp only []
  by_cases h : Contains (lastLine (readTail data)) s.subject = true
  · rw [if_pos h]
    refine ⟨_, ?_, finish_disk_eq _ _ _ _ _ _ _⟩
    exact (Wrote_ite s.debugMode env 179 _ lg).trans (Wrote_debugConfig s env _)
  · rw [if_neg h]
    by_cases hc : complete s
    · rw [if_pos hc]
      refine ⟨_, ?_, finish_disk_eq _ _ _ _ _ _ _⟩
      exact (Wrote_ite s.debugMode env 183 _ lg).trans
        ((Wrote_sendEmail _ env _ _).trans (Wrote_debugConfig s env _))
    · rw [if_neg hc]
      refine ⟨_, ?_, finish_disk_eq _ _ _ _ _ _ _⟩
      exact (Wrote_ite s.debugMode env 183 _ lg).trans
        ((Wrote_ite s.debugMode env 193 _ _).trans (Wrote_debugConfig s env _))

theorem Run_eq_check (c : CommandLine) (p : ConfigFile) (chk : CheckResult) (env : Env)
    (d : Disk) :
    Run c p chk env d = check (resolve c p) chk env
      (debugSettings (load c p) env (attach (load c p).logFileName d)) := rfl

theorem Run_transportError (c : CommandLine) (p : ConfigFile) (err : Str) (env : Env)
    (d : Disk) :
    (Run c p (.transportError err) env d).decision = some .NoAction ∧
    (Run c p (.transportError err) env d).emails = [] ∧
    (Run c p (.transportError err) env d).tail = none ∧
    (Run c p (.transportError err) env d).panicked = false ∧
    (Run c p (.transportError err) env d).wroteConfig = true := by
  rw [Run_eq_check]
  unfold check
  split_ifs <;> exact ⟨rfl, rfl, rfl, rfl, rfl⟩

theorem Run_ok (c : CommandLine) (p : ConfigFile) (Status : Str) (env : Env) (d : Disk) :
    (Run c p (.response 200 Status) env d).decision = some .NoAction ∧
    (Run c p (.response 200 Status) env d).emails = [] ∧
    (Run c p (.response 200 Status) env d).tail = none ∧
    (Run c p (.response 200 Status) env d).panicked = false ∧
    (Run c p (.response 200 Status) env d).wroteConfig = true := by
  rw [Run_eq_check]
  unfold check
  simp only [ne_eq, not_true_eq_false, if_false]
  split_ifs <;> exact ⟨rfl, rfl, rfl, rfl, rfl⟩

theorem Run_noURL (c : CommandLine) (p : ConfigFile) (chk : CheckResult) (env : Env) (d : Disk)
    (h : (resolve c p).url = []) :
    (Run c p chk env d).decision = some .NoAction ∧ (Run c p chk env d).emails = [] ∧
    (Run c p chk env d).tail = none ∧ (Run c p chk env d).panicked = false ∧
    (Run c p chk env d).wroteConfig = true := by
  rw [Run_eq_check]
  unfold check
  rw [if_pos h]
  exact ⟨rfl, rfl, rfl, rfl, rfl⟩

theorem Run_read (c : CommandLine) (p : ConfigFile) (code : Int) (Status : Str) (env : Env)
    (d : Disk) (data : Str) (hurl : (resolve c p).url ≠ []) (hcode : code ≠ 200)
    (h : OpenFileRead (resolve c p).logFileName (atRead c p Status env d).disk = some data) :
    Run c p (.response code Status) env d =
      notify (resolve c p) env (atRead c p Status env d) data := by
  rw [Run_eq_check]
  unfold atRead at h ⊢
  unfold check
  simp only [if_neg hurl, if_pos hcode, h]

theorem Run_unreadable (c : CommandLine) (p : ConfigFile) (code : Int) (Status : Str) (env : Env)
    (d : Disk) (hurl : (resolve c p).url ≠ []) (hcode : code ≠ 200)
    (h : OpenFileRead (resolve c p).logFileName (atRead c p Status env d).disk = none) :
    (Run c p (.response code Status) env d).decision = none ∧
    (Run c p (.response code Status) env d).emails = [] ∧
    (Run c p (.response code Status) env d).tail = none ∧
    (Run c p (.response code Status) env d).panicked = true ∧
    (Run c p (.response code Status) env d).wroteConfig = false := by
  rw [Run_eq_check]
  unfold atRead at h
  unfold check
  simp only [if_neg hurl, if_pos hcode, h, and_self]

/-- The three ways a run can go: no log is read and nothing is done; the log
cannot be opened and the run panics; the log is read and `notify` decides. -/
theorem Run_cases (c : CommandLine) (p : ConfigFile) (chk : CheckResult) (env : Env) (d : Disk) :
    ((Run c p chk env d).decision = some .NoAction ∧ (Run c p chk env d).emails = [] ∧
      (Run c p chk env d).tail = none ∧ (Run c p chk env d).panicked = false ∧
      (Run c p chk env d).wroteConfig = true) ∨
    ((resolve c p).url ≠ [] ∧ ∃ code Status, chk = .response code Status ∧ code ≠ 200 ∧
      ((OpenFileRead (resolve c p).logFileName (atRead c p Status env d).disk = none ∧
        (Run c p chk env d).decision = none ∧ (Run c p chk env d).emails = [] ∧
        (Run c p chk env d).tail = none ∧ (Run c p chk env d).panicked = true ∧
        (Run c p chk env d).wroteConfig = false) ∨
       ∃ data, OpenFileRead (resolve c p).logFileName (atRead c p Status env d).disk = some data ∧
        Run c p chk env d = notify (resolve c p) env (atRead c p Status env d) data)) := by
  by_cases hurl : (resolve c p).url = []
  · exact Or.inl (Run_noURL c p chk env d hurl)
  · cases chk with
    | transportError err => exact Or.inl (Run_transportError c p err env d)
    | response code Status =>
      by_cases hcode : code = 200
      · subst hcode
        exact Or.inl (Run_ok c p Status env d)
      · right
        refine ⟨hurl, code, Status, rfl, hcode, ?_⟩
        cases hr : OpenFileRead (resolve c p).logFileName (atRead c p Status env d).disk with
        | none => exact Or.inl ⟨rfl, Run_unreadable c p code Status env d hurl hcode hr⟩
        | some data => exact Or.inr ⟨data, rfl, Run_read c p code Status env d data hurl hcode hr⟩

/-- A run that read a log tail is a run of `notify`. -/
theorem Run_of_tail (c : CommandLine) (p : ConfigFile) (chk : CheckResult) (env : Env) (d : Disk)
    (t : Str) (h : (Run c p chk env d).tail = some t) :
    (resolve c p).url ≠ [] ∧ ∃ code Status data, chk = .response code Status ∧ code ≠ 200 ∧
      OpenFileRead (resolve c p).logFileName (atRead c p Status env d).disk = some data ∧
      t = readTail data ∧
      Run c p chk env d = notify (resolve c p) env (atRead c p Status env d) data := by
  rcases Run_cases c p chk env d with ⟨_, _, ht, _⟩ | ⟨hurl, code, Status, hchk, hcode, hr⟩
  · rw [ht] at h
    cases h
  · rcases hr with ⟨_, _, _, ht, _⟩ | ⟨data, hd, he⟩
    · rw [ht] at h
      cases h
    · refine ⟨hurl, code, Status, data, hchk, hcode, hd, ?_, he⟩
      rw [he, notify_tail] at h
      exact (Option.some.inj h).symm

theorem Run_of_notify (c : CommandLine) (p : ConfigFile) (chk : CheckResult) (env : Env)
    (d : Disk) (h : (Run c p chk env d).decision = some .Notify) :
    (resolve c p).url ≠ [] ∧ ∃ code Status data, chk = .response code Status ∧ code ≠ 200 ∧
      OpenFileRead (resolve c p).logFileName (atRead c p Status env d).disk = some data ∧
      Run c p chk env d = notify (resolve c p) env (atRead c p Status env d) data := by
  rcases Run_cases c p chk env d with ⟨hd, _⟩ | ⟨hurl, code, Status, hchk, hcode, hr⟩
  · rw [hd] at h
    cases h
  · rcases hr with ⟨_, hd, _⟩ | ⟨data, hd, he⟩
    · rw [hd] at h
      cases h
    · exact ⟨hurl, code, Status, data, hchk, hcode, hd, he⟩

/-- The settings after the merge, read from the command line and the config
file: the flag, when it is on the command line, else the config file. -/
theorem resolve_get (c : CommandLine) (p : ConfigFile) (k : Key) :
    (resolve c p).get k =
      match c.flag k with
      | some v => v
      | none => (p.value k).getD [] := by
  cases k <;>
    simp only [resolve, override, load, Settings.get, flagGetString, viperGetString] <;>
    cases c.flag _ <;> simp

/-- When the subject is not empty, a last non-empty line without the subject
means a last line without the subject. -/
theorem not_contains_lastLine (t subject : Str) (hs : subject ≠ [])
    (h : Contains (lastNonEmptyLine t) subject = false) :
    Contains (lastLine t) subject = false := by
  by_cases hl : lastLine t = []
  · rw [hl]
    exact Contains_nil_left subject hs
  · rw [← lastNonEmptyLine_eq_lastLine t hl]
    exact h

theorem complete_congr (s s1 : Settings) (h : ∀ k, s.get k = s1.get k) :
    complete s ↔ complete s1 := by
  unfold complete
  have h1 := h .user
  have h2 := h .password
  have h3 := h .smtp
  have h4 := h .port
  have h5 := h .recipient
  have h6 := h .subject
  simp only [Settings.get] at h1 h2 h3 h4 h5 h6
  rw [h1, h2, h3, h4, h5, h6]

theorem notification_congr (s s1 : Settings) (h : ∀ k, s.get k = s1.get k) :
    notification s = notification s1 := by
  unfold notification
  have h1 := h .user
  have h2 := h .password
  have h3 := h .smtp
  have h4 := h .port
  have h5 := h .recipient
  have h6 := h .subject
  have h7 := h .author
  have h8 := h .body
  have h9 := h .URL
  simp only [Settings.get] at h1 h2 h3 h4 h5 h6 h7 h8 h9
  rw [h1, h2, h3, h4, h5, h6, h7, h8, h9]

theorem notify_sent_of_suppressed (s : Settings) (env : Env) (lg : Logger) (data : Str)
    (h : Contains (lastLine (readTail data)) s.subject = true) :
    (notify s env lg data).sent = [] := by
  unfold notify
  simp only [h, if_true]
  rfl

/-- On the branch that sends, the one call of `smtplib.SendMail` is the call
that `sendEmail` makes for the notification. -/
theorem notify_sent_of_notify (s : Settings) (env : Env) (lg : Logger) (data : Str)
    (h : Contains (lastLine (readTail data)) s.subject = false) (hc : complete s) :
    (notify s env lg data).sent = [sendMailArgs (notification s)] := by
  unfold notify
  simp only [h, hc, if_true, Bool.false_eq_true, if_false]
  exact sendEmail_sent _ _ _ _

theorem notify_sent_of_blocked (s : Settings) (env : Env) (lg : Logger) (data : Str)
    (h : Contains (lastLine (readTail data)) s.subject = false) (hc : ¬ complete s) :
    (notify s env lg data).sent = [] := by
  unfold notify
  simp only [h, hc, Bool.false_eq_true, if_false]
  rfl

/-- A run that reads no log tail hands nothing to `smtplib.SendMail`. -/
theorem Run_sent_of_no_read (c : CommandLine) (p : ConfigFile) (chk : CheckResult) (env : Env)
    (d : Disk) (h : (Run c p chk env d).tail = none) : (Run c p chk env d).sent = [] := by
  by_cases h1 : (resolve c p).url = []
  · rw [Run_eq_check]
    unfold check
    rw [if_pos h1]
    rfl
  · cases chk with
    | transportError err =>
      rw [Run_eq_check]
      unfold check
      rw [if_neg h1]
      rfl
    | response code Status =>
      by_cases h2 : code ≠ 200
      · cases hx : OpenFileRead (resolve c p).logFileName (atRead c p Status env d).disk with
        | none =>
          rw [Run_eq_check]
          unfold check
          unfold atRead at hx
          simp only [if_neg h1, if_pos h2, hx]
        | some data =>
          rw [Run_read c p code Status env d data h1 h2 hx, notify_tail] at h
          cases h
      · rw [Run_eq_check]
        unfold check
        simp only [if_neg h1, if_neg h2]
        rfl

/-- What `notify` decides and sends depends on the settings other than the
debug mode and on the contents of the log file only. -/
theorem notify_congr (s s1 : Settings) (env env1 : Env) (lg lg1 : Logger) (data : Str)
    (hs : ∀ k, s.get k = s1.get k) :
    (notify s env lg data).decision = (notify s1 env1 lg1 data).decision ∧
    (notify s env lg data).emails = (notify s1 env1 lg1 data).emails ∧
    (notify s env lg data).sent = (notify s1 env1 lg1 data).sent ∧
    (notify s env lg data).tail = (notify s1 env1 lg1 data).tail ∧
    (notify s env lg data).panicked = (notify s1 env1 lg1 data).panicked := by
  have hj : s.subject = s1.subject := hs .subject
  have hcc := complete_congr _ _ hs
  have hnn := notification_congr _ _ hs
  refine ⟨?_, ?_, ?_, by rw [notify_tail, notify_tail],
    by rw [(notify_finished _ _ _ _).1, (notify_finished _ _ _ _).1]⟩
  all_goals
    cases hc : Contains (lastLine (readTail data)) s.subject with
    | true =>
      have hc1 : Contains (lastLine (readTail data)) s1.subject = true := hj ▸ hc
      first
      | rw [(notify_suppressed s env lg data hc).1, (notify_suppressed s1 env1 lg1 data hc1).1]
      | rw [(notify_suppressed s env lg data hc).2, (notify_suppressed s1 env1 lg1 data hc1).2]
      | rw [notify_sent_of_suppressed s env lg data hc,
          notify_sent_of_suppressed s1 env1 lg1 data hc1]
    | false =>
      have hc1 : Contains (lastLine (readTail data)) s1.subject = false := hj ▸ hc
      by_cases hk : complete s
      · have hk1 : complete s1 := hcc.mp hk
        first
        | rw [(notify_notify s env lg data hc hk).1, (notify_notify s1 env1 lg1 data hc1 hk1).1]
        | rw [(notify_notify s env lg data hc hk).2, (notify_notify s1 env1 lg1 data hc1 hk1).2,
            hnn]
        | rw [notify_sent_of_notify s env lg data hc hk,
            notify_sent_of_notify s1 env1 lg1 data hc1 hk1, hnn]
      · have hk1 : ¬ complete s1 := fun h => hk (hcc.mpr h)
        first
        | rw [(notify_blocked s env lg data hc hk).1, (notify_blocked s1 env1 lg1 data hc1 hk1).1]
        | rw [(notify_blocked s env lg data hc hk).2, (notify_blocked s1 env1 lg1 data hc1 hk1).2]
        | rw [notify_sent_of_blocked s env lg data hc hk,
            notify_sent_of_blocked s1 env1 lg1 data hc1 hk1]

/-- A logger that does not write to the log file leaves the file as it is. -/
theorem Wrote_data_of_not_toFile {lg lg1 : Logger} (h : Wrote lg lg1) (hf : lg.toFile = false) :
    lg1.disk.data = lg.disk.data ∧ lg1.disk.mayRead = lg.disk.mayRead := by
  obtain ⟨_, _, hr, _, hd⟩ := h
  refine ⟨?_, hr⟩
  rcases hd with e | ⟨ht, _⟩
  · exact e
  · rw [hf] at ht
    cases ht

theorem OpenFileRead_congr (name : Str) (d d1 : Disk) (hd : d1.data = d.data)
    (hr : d1.mayRead = d.mayRead) : OpenFileRead name d1 = OpenFileRead name d := by
  unfold OpenFileRead
  rw [hd, hr]

/-- When the logger does not write to the log file, the open of line 154 finds
the file as the run found it. -/
theorem OpenFileRead_atRead_of_not_toFile (c : CommandLine) (p : ConfigFile) (Status : Str)
    (env : Env) (d : Disk) (hf : (attach (resolve c p).logFileName d).toFile = false) :
    OpenFileRead (resolve c p).logFileName (atRead c p Status env d).disk =
      OpenFileRead (resolve c p).logFileName d := by
  obtain ⟨h1, h2⟩ := Wrote_data_of_not_toFile (Wrote_atRead c p Status env d) hf
  have h3 : (attach (resolve c p).logFileName d).disk = d :=
    (attach_disk (resolve c p).logFileName d).2.2 hf
  apply OpenFileRead_congr
  · rw [h1]
    exact congrArg Disk.data h3
  · rw [h2]
    exact congrArg Disk.mayRead h3

/-! ## The claims -/

/-- C1, as the code behaves: a run that decides Notify is followed by a run
that decides Notify again.  When a run has called `sendEmail`, the next run
with the same command line, config file and check result, started on the log
file that the first run left, calls `sendEmail` once more with the same
arguments: the record that `sendEmail` appended ends in a line break, so the
last line that the next run reads is empty and does not hold the subject. -/
theorem second_run_notifies_again (c : CommandLine) (p : ConfigFile) (chk : CheckResult)
    (env env1 : Env) (d : Disk) (h : (Run c p chk env d).decision = some .Notify) :
    (Run c p chk env1 (Run c p chk env d).disk).decision = some .Notify ∧
    (Run c p chk env1 (Run c p chk env d).disk).emails = [notification (resolve c p)] := by
  obtain ⟨hurl, code, Status, data, rfl, hcode, hread, heq⟩ := Run_of_notify c p chk env d h
  rw [heq] at h
  obtain ⟨hnc, hcomp⟩ := notify_decision_notify _ _ _ _ h
  obtain ⟨lgF, hW, hdisk⟩ := notify_disk (resolve c p) env (atRead c p Status env d) data
  obtain ⟨hn, hmr, hdata⟩ := (OpenFileRead_eq_some_iff _ _ _).mp hread
  obtain ⟨_, _, hr1, _, hdat1⟩ := hW
  have hsub : (resolve c p).subject ≠ [] := hcomp.2.2.2.2.2
  rw [heq, hdisk]
  have hdat : lgF.disk.data = some data ∨ ∃ x, lgF.disk.data = some x ∧ Terminated x := by
    rcases hdat1 with e | ⟨_, x, hx, hl⟩
    · exact Or.inl (e.trans hdata)
    · exact Or.inr ⟨x, hx, Or.inr hl⟩
  have hsome : lgF.disk.data ≠ none := by
    rcases hdat with e | ⟨x, hx, _⟩
    · rw [e]; exact Option.some_ne_none _
    · rw [hx]; exact Option.some_ne_none _
  have hR : Readable (resolve c p).logFileName lgF.disk := ⟨hn, hr1.trans hmr, Or.inl hsome⟩
  obtain ⟨data2, hread2⟩ := (OpenFileRead_atRead_isSome c p Status env1 lgF.disk).mpr hR
  rw [Run_read c p code Status env1 lgF.disk data2 hurl hcode hread2]
  refine notify_notify _ _ _ _ ?_ hcomp
  obtain ⟨_, _, hdata2⟩ := (OpenFileRead_eq_some_iff _ _ _).mp hread2
  have hterm : ∀ x, Terminated x → Contains (lastLine (readTail x)) (resolve c p).subject = false := by
    intro x hx
    rw [lastLine_readTail_of_terminated x hx]
    exact Contains_nil_left _ hsub
  rcases (atRead_disk c p Status env1 lgF.disk).2 with e | ⟨x, hx, hl⟩
  · rcases (attach_disk (resolve c p).logFileName lgF.disk).2.1 with e2 | ⟨hnone, _⟩
    · rw [hdata2, e2] at e
      rcases hdat with e3 | ⟨x, hx, ht⟩
      · rw [e3] at e
        rw [Option.some.inj e]
        exact hnc
      · rw [hx] at e
        rw [Option.some.inj e]
        exact hterm x ht
    · exact absurd hnone hsome
  · rw [hdata2] at hx
    rw [Option.some.inj hx]
    exact hterm x (Or.inr hl)

/-- C1 at a concrete input: the first run, on status 503 and without a log
file, creates the log, sends the email and appends the record `Email sent
successfully: Down`; the second run, on that log, sends the email again. -/
theorem second_run_notifies_again_witness :
    (Run cmdDown noConfig status503 envOk (diskWith none)).decision = some .Notify ∧
    (Run cmdDown noConfig status503 envOk (diskWith none)).disk.data =
      some "2024/01/02 03:04:05 Tue, 02 Jan 2024 03:04:05 +0000 - Email sent successfully: Down\n".toList ∧
    (Run cmdDown noConfig status503 envOk
        (Run cmdDown noConfig status503 envOk (diskWith none)).disk).decision = some .Notify ∧
    (Run cmdDown noConfig status503 envOk
        (Run cmdDown noConfig status503 envOk (diskWith none)).disk).emails =
      [notification (resolve cmdDown noConfig)] :=
  ⟨by decide, by decide,
    second_run_notifies_again cmdDown noConfig status503 envOk envOk (diskWith none) (by decide)⟩

/-- C2, as the code behaves: for every response after which a log tail is
read, that is every response whose status code is not 200 with a log file
that can be read, and every log tail that ends in a line break, as every log tail that the
program wrote does, the decision is not Suppressed when the subject is not
empty, whatever the last non-empty line of the tail holds: the last line that
the code takes is the empty text after the last line break.  With all the
settings of the notification given, the decision is Notify and `sendEmail`
hands the mail to `smtplib.SendMail`. -/
theorem terminated_tail_is_not_suppressed (c : CommandLine) (p : ConfigFile) (code : Int)
    (Status : Str) (env : Env) (d : Disk) (t : Str)
    (ht : (Run c p (.response code Status) env d).tail = some t)
    (hnl : t.getLast? = some '\n') (hsub : (resolve c p).subject ≠ []) :
    (Run c p (.response code Status) env d).decision ≠ some .Suppressed ∧
    (complete (resolve c p) →
      (Run c p (.response code Status) env d).decision = some .Notify ∧
      (Run c p (.response code Status) env d).emails = [notification (resolve c p)] ∧
      (Run c p (.response code Status) env d).sent =
        [sendMailArgs (notification (resolve c p))]) := by
  obtain ⟨_, code1, Status1, data, hchk, _, _, rfl, heq⟩ := Run_of_tail c p _ env d t ht
  rw [heq]
  have hc : Contains (lastLine (readTail data)) (resolve c p).subject = false := by
    rw [lastLine_of_terminated _ (Or.inr hnl)]
    exact Contains_nil_left _ hsub
  constructor
  · by_cases hk : complete (resolve c p)
    · rw [(notify_notify _ _ _ _ hc hk).1]
      exact fun h => by cases h
    · rw [(notify_blocked _ _ _ _ hc hk).1]
      exact fun h => by cases h
  · intro hk
    exact ⟨(notify_notify _ _ _ _ hc hk).1, (notify_notify _ _ _ _ hc hk).2,
      notify_sent_of_notify _ _ _ _ hc hk⟩

/-- C2 at a concrete input: status 503, subject `Down`, the log
`2024-01-01 - Down: http://x` followed by a line break.  The last non-empty
line of the tail holds the subject, and the run decides Notify and sends the
mail. -/
theorem terminated_tail_is_not_suppressed_witness :
    ((503 : Int) ≠ 200 ∧
      (Run cmdDown noConfig status503 envOk
        (diskWith (some "2024-01-01 - Down: http://x\n".toList))).tail =
        some "2024-01-01 - Down: http://x\n".toList ∧
      "2024-01-01 - Down: http://x\n".toList.getLast? = some '\n' ∧
      (resolve cmdDown noConfig).subject ≠ [] ∧
      lastNonEmptyLine "2024-01-01 - Down: http://x\n".toList =
        "2024-01-01 - Down: http://x".toList ∧
      Contains (lastNonEmptyLine "2024-01-01 - Down: http://x\n".toList)
        (resolve cmdDown noConfig).subject = true ∧
      complete (resolve cmdDown noConfig)) ∧
    (Run cmdDown noConfig status503 envOk
        (diskWith (some "2024-01-01 - Down: http://x\n".toList))).decision ≠ some .Suppressed ∧
    (Run cmdDown noConfig status503 envOk
        (diskWith (some "2024-01-01 - Down: http://x\n".toList))).decision = some .Notify ∧
    (Run cmdDown noConfig status503 envOk
        (diskWith (some "2024-01-01 - Down: http://x\n".toList))).emails =
      [notification (resolve cmdDown noConfig)] ∧
    (Run cmdDown noConfig status503 envOk
        (diskWith (some "2024-01-01 - Down: http://x\n".toList))).sent =
      [sendMailArgs (notification (resolve cmdDown noConfig))] :=
  ⟨⟨by decide, by decide, by decide, by decide, by decide, by decide, by decide⟩,
    (terminated_tail_is_not_suppressed cmdDown noConfig 503 "503 Service Unavailable".toList
      envOk (diskWith (some "2024-01-01 - Down: http://x\n".toList))
      "2024-01-01 - Down: http://x\n".toList (by decide) (by decide) (by decide)).1,
    (terminated_tail_is_not_suppressed cmdDown noConfig 503 "503 Service Unavailable".toList
      envOk (diskWith (some "2024-01-01 - Down: http://x\n".toList))
      "2024-01-01 - Down: http://x\n".toList (by decide) (by decide) (by decide)).2
      (by decide)⟩

/-- C3, as the code behaves: on a transport error the run only logs the
failure, for every command line, config file, log file and outside world:
the log is not read, `sendEmail` is not called, nothing is handed to
`smtplib.SendMail`, and the run goes on to `viper.WriteConfig()`. -/
theorem transport_error_sends_no_email (c : CommandLine) (p : ConfigFile) (err : Str)
    (env : Env) (d : Disk) :
    (Run c p (.transportError err) env d).decision ≠ some .Notify ∧
    (Run c p (.transportError err) env d).emails = [] ∧
    (Run c p (.transportError err) env d).sent = [] ∧
    (Run c p (.transportError err) env d).tail = none ∧
    (Run c p (.transportError err) env d).wroteConfig = true := by
  have h := Run_transportError c p err env d
  refine ⟨?_, h.2.1, Run_sent_of_no_read _ _ _ _ _ h.2.2.1, h.2.2.1, h.2.2.2.2⟩
  rw [h.1]
  exact fun e => by cases e

/-- C3 at a concrete input: the connection is refused, the log is empty, so
that its last non-empty line does not hold the subject, and all the settings
of the notification are given; no mail is sent. -/
theorem transport_error_sends_no_email_witness :
    (complete (resolve cmdDown noConfig) ∧ (resolve cmdDown noConfig).url ≠ [] ∧
      Contains (lastNonEmptyLine (readTail [])) (resolve cmdDown noConfig).subject = false) ∧
    (Run cmdDown noConfig refused envOk (diskWith (some []))).decision ≠ some .Notify ∧
    (Run cmdDown noConfig refused envOk (diskWith (some []))).emails = [] ∧
    (Run cmdDown noConfig refused envOk (diskWith (some []))).sent = [] ∧
    (Run cmdDown noConfig refused envOk (diskWith (some []))).tail = none ∧
    (Run cmdDown noConfig refused envOk (diskWith (some []))).wroteConfig = true :=
  ⟨⟨by decide, by decide, by decide⟩,
    transport_error_sends_no_email cmdDown noConfig _ envOk (diskWith (some []))⟩

/-- For a response whose status code is not 200 the notification is sent: if
the last non-empty line of the log tail does not hold the subject (as with an
empty log tail) and user, password, SMTP host, port, recipient and subject are
not empty, the decision is Notify and `sendEmail` is called exactly once and
makes its one call of `smtplib.SendMail`. -/
theorem notify_on_bad_status (c : CommandLine) (p : ConfigFile) (code : Int) (Status : Str)
    (env : Env) (d : Disk) (t : Str)
    (ht : (Run c p (.response code Status) env d).tail = some t)
    (hsub : Contains (lastNonEmptyLine t) (resolve c p).subject = false)
    (hcomp : complete (resolve c p)) :
    (Run c p (.response code Status) env d).decision = some .Notify ∧
    (Run c p (.response code Status) env d).emails = [notification (resolve c p)] ∧
    (Run c p (.response code Status) env d).sent =
      [sendMailArgs (notification (resolve c p))] := by
  obtain ⟨_, code1, Status1, data, hchk, _, _, rfl, heq⟩ := Run_of_tail c p _ env d t ht
  rw [heq]
  have hc := not_contains_lastLine _ _ hcomp.2.2.2.2.2 hsub
  exact ⟨(notify_notify _ _ _ _ hc hcomp).1, (notify_notify _ _ _ _ hc hcomp).2,
    notify_sent_of_notify _ _ _ _ hc hcomp⟩

/-- C4: a response with status code 200 gives NoAction, for every command
line, config file, log file and outside world: `sendEmail` is not called, the
log is not read, and the run reaches `viper.WriteConfig()`. -/
theorem ok_status_no_action (c : CommandLine) (p : ConfigFile) (Status : Str) (env : Env)
    (d : Disk) :
    (Run c p (.response 200 Status) env d).decision = some .NoAction ∧
    (Run c p (.response 200 Status) env d).emails = [] ∧
    (Run c p (.response 200 Status) env d).tail = none ∧
    (Run c p (.response 200 Status) env d).panicked = false ∧
    (Run c p (.response 200 Status) env d).wroteConfig = true :=
  Run_ok c p Status env d

/-- C5: for every failed check whose log-tail last line does not hold the
subject (be it the last line that the code takes or the last non-empty line),
if one of user, password, SMTP host, port, recipient is empty, `sendEmail` is
not called, nothing is handed to `smtplib.SendMail`, and the run reaches
`viper.WriteConfig()` without a panic.  A log tail is read for a response
whose status code is not 200, and the branch taken is then Blocked (line
191).  On a transport error no log tail is read; with one of the five
settings empty, what the claim promises of the run holds there as well. -/
theorem blocked_when_incomplete (c : CommandLine) (p : ConfigFile) (env : Env) (d : Disk) :
    (∀ (code : Int) (Status t : Str), code ≠ 200 →
      (Run c p (.response code Status) env d).tail = some t →
      (Contains (lastLine t) (resolve c p).subject = false ∨
        Contains (lastNonEmptyLine t) (resolve c p).subject = false) →
      ((resolve c p).user = [] ∨ (resolve c p).password = [] ∨ (resolve c p).smtp = [] ∨
        (resolve c p).port = [] ∨ (resolve c p).recipient = []) →
      (Run c p (.response code Status) env d).decision = some .Blocked ∧
      (Run c p (.response code Status) env d).emails = [] ∧
      (Run c p (.response code Status) env d).sent = [] ∧
      (Run c p (.response code Status) env d).panicked = false ∧
      (Run c p (.response code Status) env d).wroteConfig = true) ∧
    (∀ err : Str,
      ((resolve c p).user = [] ∨ (resolve c p).password = [] ∨ (resolve c p).smtp = [] ∨
        (resolve c p).port = [] ∨ (resolve c p).recipient = []) →
      (Run c p (.transportError err) env d).emails = [] ∧
      (Run c p (.transportError err) env d).sent = [] ∧
      (Run c p (.transportError err) env d).panicked = false ∧
      (Run c p (.transportError err) env d).wroteConfig = true) := by
  constructor
  · intro code Status t _ ht hsub hmiss
    obtain ⟨_, code1, Status1, data, hchk, _, _, rfl, heq⟩ := Run_of_tail c p _ env d t ht
    rw [heq]
    have hsub1 : Contains (lastLine (readTail data)) (resolve c p).subject = false := by
      rcases hsub with h | h
      · exact h
      · refine not_contains_lastLine _ _ ?_ h
        intro he
        rw [he, Contains_empty] at h
        cases h
    have hcomp : ¬ complete (resolve c p) := by
      rintro ⟨h1, h2, h3, h4, h5, _⟩
      rcases hmiss with h | h | h | h | h
      · exact h1 h
      · exact h2 h
      · exact h3 h
      · exact h4 h
      · exact h5 h
    have h := notify_blocked (resolve c p) env (atRead c p Status1 env d) data hsub1 hcomp
    have hf := notify_finished (resolve c p) env (atRead c p Status1 env d) data
    exact ⟨h.1, h.2, notify_sent_of_blocked _ _ _ _ hsub1 hcomp, hf.1, hf.2⟩
  · intro err _
    have h := Run_transportError c p err env d
    exact ⟨h.2.1, Run_sent_of_no_read _ _ _ _ _ h.2.2.1, h.2.2.2.1, h.2.2.2.2⟩

/-- C5 at the input of scenario E: status 503, a log whose last line does not
hold the subject, an empty password; and the same settings and log with a
refused connection. -/
theorem blocked_when_incomplete_witness :
    ((503 : Int) ≠ 200 ∧
      (Run cmdNoPassword noConfig status503 envOk
        (diskWith (some "2024-01-01 - started".toList))).tail =
        some "2024-01-01 - started".toList ∧
      Contains (lastLine "2024-01-01 - started".toList)
        (resolve cmdNoPassword noConfig).subject = false ∧
      (resolve cmdNoPassword noConfig).password = []) ∧
    ((Run cmdNoPassword noConfig status503 envOk
        (diskWith (some "2024-01-01 - started".toList))).decision = some .Blocked ∧
      (Run cmdNoPassword noConfig status503 envOk
        (diskWith (some "2024-01-01 - started".toList))).emails = [] ∧
      (Run cmdNoPassword noConfig status503 envOk
        (diskWith (some "2024-01-01 - started".toList))).sent = [] ∧
      (Run cmdNoPassword noConfig status503 envOk
        (diskWith (some "2024-01-01 - started".toList))).panicked = false ∧
      (Run cmdNoPassword noConfig status503 envOk
        (diskWith (some "2024-01-01 - started".toList))).wroteConfig = true) ∧
    ((Run cmdNoPassword noConfig refused envOk
        (diskWith (some "2024-01-01 - started".toList))).emails = [] ∧
      (Run cmdNoPassword noConfig refused envOk
        (diskWith (some "2024-01-01 - started".toList))).sent = [] ∧
      (Run cmdNoPassword noConfig refused envOk
        (diskWith (some "2024-01-01 - started".toList))).panicked = false ∧
      (Run cmdNoPassword noConfig refused envOk
        (diskWith (some "2024-01-01 - started".toList))).wroteConfig = true) :=
  ⟨⟨by decide, by decide, by decide, by decide⟩,
    (blocked_when_incomplete cmdNoPassword noConfig envOk
      (diskWith (some "2024-01-01 - started".toList))).1 503
      "503 Service Unavailable".toList "2024-01-01 - started".toList
      (by decide) (by decide) (Or.inl (by decide)) (Or.inr (Or.inl (by decide))),
    (blocked_when_incomplete cmdNoPassword noConfig envOk
      (diskWith (some "2024-01-01 - started".toList))).2 _ (Or.inr (Or.inl (by decide)))⟩

/-- C6 is false as stated: with the subject `Down` in the config file and the
flag `-j ""` on the command line, the override is empty and the merged
subject is empty, not the persisted `Down`. -/
theorem empty_flag_drops_persisted_value :
    flagGetString cmdEmptySubject .subject = [] ∧
    configDown.value .subject = some "Down".toList ∧
    (resolve cmdEmptySubject configDown).get .subject = [] ∧
    (resolve cmdEmptySubject configDown).get .subject ≠ "Down".toList := by
  decide

/-- C6, amended: for every setting, the merged value is the override when the
override is not empty, and the persisted value (empty when the config file
does not have it) when the flag is not on the command line; a flag that is on
the command line with the empty string leaves the setting empty. -/
theorem resolve_precedence (c : CommandLine) (p : ConfigFile) (k : Key) :
    (flagGetString c k ≠ [] → (resolve c p).get k = flagGetString c k) ∧
    (c.flag k = none → (resolve c p).get k = (p.value k).getD []) ∧
    (c.flag k = some [] → (resolve c p).get k = []) := by
  rw [resolve_get]
  unfold flagGetString
  cases c.flag k with
  | none => simp
  | some v => simp

/-- C6, amended, at the input of scenario A: the config file has an empty URL
and the subject `Down`, the command line has `-U http://x` only; the merged
URL is `http://x` and the merged subject is `Down`. -/
theorem resolve_precedence_witness :
    (flagGetString cmdURL .URL ≠ [] ∧ cmdURL.flag .subject = none) ∧
    (resolve cmdURL configDown).get .URL = "http://x".toList ∧
    (resolve cmdURL configDown).get .subject = "Down".toList :=
  ⟨⟨by decide, by decide⟩,
    (resolve_precedence cmdURL configDown .URL).1 (by decide),
    (resolve_precedence cmdURL configDown .subject).2.1 (by decide)⟩

/-- C7, as the code behaves: when the log file cannot be opened for reading
(no log file name, a file that may not be read, or no file and none created),
a response whose status code is not 200 ends the run with a panic: no branch
of the notification logic is taken, `sendEmail` is not called and
`viper.WriteConfig()` is not reached. -/
theorem unreadable_log_panics (c : CommandLine) (p : ConfigFile) (code : Int) (Status : Str)
    (env : Env) (d : Disk) (hurl : (resolve c p).url ≠ []) (hcode : code ≠ 200)
    (hr : ¬ Readable (resolve c p).logFileName d) :
    (Run c p (.response code Status) env d).panicked = true ∧
    (Run c p (.response code Status) env d).decision = none ∧
    (Run c p (.response code Status) env d).emails = [] ∧
    (Run c p (.response code Status) env d).wroteConfig = false := by
  have h := Run_unreadable c p code Status env d hurl hcode
    (OpenFileRead_atRead_of_not_readable c p Status env d hr)
  exact ⟨h.2.2.2.1, h.1, h.2.1, h.2.2.2.2⟩

/-- C7 at a concrete input: no log file is configured, the status is 503 and
all the settings of the notification are given; the run panics. -/
theorem unreadable_log_panics_witness :
    ((resolve cmdNoLog noConfig).url ≠ [] ∧ (503 : Int) ≠ 200 ∧
      (resolve cmdNoLog noConfig).logFileName = [] ∧
      ¬ Readable (resolve cmdNoLog noConfig).logFileName (diskWith none) ∧
      complete (resolve cmdNoLog noConfig)) ∧
    (Run cmdNoLog noConfig status503 envOk (diskWith none)).panicked = true ∧
    (Run cmdNoLog noConfig status503 envOk (diskWith none)).decision = none ∧
    (Run cmdNoLog noConfig status503 envOk (diskWith none)).emails = [] ∧
    (Run cmdNoLog noConfig status503 envOk (diskWith none)).wroteConfig = false :=
  ⟨⟨by decide, by decide, by decide, by decide, by decide⟩,
    unreadable_log_panics cmdNoLog noConfig 503 "503 Service Unavailable".toList envOk
      (diskWith none) (by decide) (by decide) (by decide)⟩

/-- C8: whenever the decision is Notify, `sendEmail` is called once, with the
author as sender, or the user when the author is empty, and the recipient as
destination, and it makes one call of `smtplib.SendMail`: to the recipient,
with a message whose `From` line is that sender, whose subject line is
`subject` followed at once by the URL and whose body is `body` followed at
once by the URL. -/
theorem notification_contents (c : CommandLine) (p : ConfigFile) (chk : CheckResult) (env : Env)
    (d : Disk) (h : (Run c p chk env d).decision = some .Notify) :
    ∃ (e : Email) (m : SendMailArgs),
      (Run c p chk env d).emails = [e] ∧ (Run c p chk env d).sent = [m] ∧
      e.sender =
        (if (resolve c p).author = [] then (resolve c p).user else (resolve c p).author) ∧
      e.recipient = (resolve c p).recipient ∧
      m.toAddrs = [(resolve c p).recipient] ∧
      m.msg =
        "From: ".toList ++
          (if (resolve c p).author = [] then (resolve c p).user else (resolve c p).author) ++
          "\r\n".toList ++
        "To: ".toList ++ (resolve c p).recipient ++ "\r\n".toList ++
        "Subject: ".toList ++ ((resolve c p).subject ++ (resolve c p).url) ++ "\r\n".toList ++
        "\r\n".toList ++ ((resolve c p).body ++ (resolve c p).url) ++ "\r\n".toList := by
  obtain ⟨_, code, Status, data, _, _, _, heq⟩ := Run_of_notify c p chk env d h
  rw [heq] at h ⊢
  obtain ⟨hnc, hcomp⟩ := notify_decision_notify _ _ _ _ h
  refine ⟨notification (resolve c p), sendMailArgs (notification (resolve c p)),
    (notify_notify _ _ _ _ hnc hcomp).2, notify_sent_of_notify _ _ _ _ hnc hcomp,
    rfl, rfl, rfl, ?_⟩
  simp only [sendMailArgs, message, notification, List.append_assoc]

/-- C8 at a concrete input: status 503, an empty log, no author: the sender
is the user, and the message that `smtplib.SendMail` receives is spelled
out. -/
theorem notification_contents_witness :
    (Run cmdDown noConfig status503 envOk (diskWith (some []))).decision = some .Notify ∧
    (∃ (e : Email) (m : SendMailArgs),
      (Run cmdDown noConfig status503 envOk (diskWith (some []))).emails = [e] ∧
      (Run cmdDown noConfig status503 envOk (diskWith (some []))).sent = [m] ∧
      e.sender =
        (if (resolve cmdDown noConfig).author = [] then (resolve cmdDown noConfig).user
          else (resolve cmdDown noConfig).author) ∧
      e.recipient = (resolve cmdDown noConfig).recipient ∧
      m.toAddrs = [(resolve cmdDown noConfig).recipient] ∧
      m.msg =
        "From: ".toList ++
          (if (resolve cmdDown noConfig).author = [] then (resolve cmdDown noConfig).user
            else (resolve cmdDown noConfig).author) ++
          "\r\n".toList ++
        "To: ".toList ++ (resolve cmdDown noConfig).recipient ++ "\r\n".toList ++
        "Subject: ".toList ++
          ((resolve cmdDown noConfig).subject ++ (resolve cmdDown noConfig).url) ++
          "\r\n".toList ++
        "\r\n".toList ++ ((resolve cmdDown noConfig).body ++ (resolve cmdDown noConfig).url) ++
          "\r\n".toList) ∧
    (Run cmdDown noConfig status503 envOk (diskWith (some []))).sent =
      [{ addr := "mail.x:25".toList, authUser := "mon@x".toList, authPassword := "pw".toList,
         authHost := "mail.x".toList, fromAddr := "mon@x".toList, toAddrs := ["ops@x".toList],
         msg := "From: mon@x\r\nTo: ops@x\r\nSubject: Downhttp://x\r\n\r\nSite down: http://x\r\n".toList }] :=
  ⟨by decide,
    notification_contents cmdDown noConfig status503 envOk (diskWith (some [])) (by decide),
    by decide⟩

set_option maxRecDepth 1000000 in
/-- C9 is false as stated: two runs on the same log, whose last line
`2024-01-01 - Down: http://x` is not terminated, with status 503 and settings
that differ in the debug flag only.  The run without debug mode reads that
last line and decides Suppressed; the run in debug mode appends its records
to the log first, reads an empty last line, decides Notify and calls
`sendEmail`. -/
theorem debug_changes_decision :
    { resolve cmdDown noConfig with debugMode := true } = resolve cmdDownDebug noConfig ∧
    (resolve cmdDown noConfig).debugMode = false ∧
    (Run cmdDown noConfig status503 envOk
        (diskWith (some "2024-01-01 - Down: http://x".toList))).decision = some .Suppressed ∧
    (Run cmdDown noConfig status503 envOk
        (diskWith (some "2024-01-01 - Down: http://x".toList))).emails = [] ∧
    (Run cmdDown noConfig status503 envOk
        (diskWith (some "2024-01-01 - Down: http://x".toList))).sent = [] ∧
    (Run cmdDownDebug noConfig status503 envOk
        (diskWith (some "2024-01-01 - Down: http://x".toList))).decision = some .Notify ∧
    (Run cmdDownDebug noConfig status503 envOk
        (diskWith (some "2024-01-01 - Down: http://x".toList))).emails =
      [notification (resolve cmdDown noConfig)] ∧
    (Run cmdDownDebug noConfig status503 envOk
        (diskWith (some "2024-01-01 - Down: http://x".toList))).sent =
      [sendMailArgs (notification (resolve cmdDown noConfig))] :=
  ⟨rfl, rfl, by decide, by decide, by decide, by decide, by decide, by decide⟩

/-- C9, amended: two runs that start from the same log file, with the same
check result and settings that agree on everything but the debug flag, take
the same decision, call `sendEmail` and `smtplib.SendMail` with the same
arguments or not at all, read the same log tail and panic or not alike,
whenever the records of the runs do not reach the log that is read: there is
no URL or the response has status code 200, so that no log tail is read, or
the logger does not write to the log file (there is no log file name, or the
open of line 94 failed).  The outside world of the two runs, the clock among
it, may differ. -/
theorem debug_keeps_decision (c c1 : CommandLine) (p p1 : ConfigFile) (chk : CheckResult)
    (env env1 : Env) (d : Disk)
    (hs : ∀ k, (resolve c p).get k = (resolve c1 p1).get k)
    (h : (resolve c p).url = [] ∨ (∃ Status, chk = .response 200 Status) ∨
      (attach (resolve c p).logFileName d).toFile = false) :
    (Run c p chk env d).decision = (Run c1 p1 chk env1 d).decision ∧
    (Run c p chk env d).emails = (Run c1 p1 chk env1 d).emails ∧
    (Run c p chk env d).sent = (Run c1 p1 chk env1 d).sent ∧
    (Run c p chk env d).tail = (Run c1 p1 chk env1 d).tail ∧
    (Run c p chk env d).panicked = (Run c1 p1 chk env1 d).panicked := by
  have hu : (resolve c p).url = (resolve c1 p1).url := hs .URL
  have hn : (resolve c p).logFileName = (resolve c1 p1).logFileName := hs .log
  have noRead : ∀ (o o1 : Outcome),
      (o.decision = some .NoAction ∧ o.emails = [] ∧ o.tail = none ∧ o.panicked = false ∧
        o.wroteConfig = true) → o.sent = [] →
      (o1.decision = some .NoAction ∧ o1.emails = [] ∧ o1.tail = none ∧ o1.panicked = false ∧
        o1.wroteConfig = true) → o1.sent = [] →
      o.decision = o1.decision ∧ o.emails = o1.emails ∧ o.sent = o1.sent ∧ o.tail = o1.tail ∧
        o.panicked = o1.panicked := by
    intro o o1 h1 g1 h2 g2
    exact ⟨h1.1.trans h2.1.symm, h1.2.1.trans h2.2.1.symm, g1.trans g2.symm,
      h1.2.2.1.trans h2.2.2.1.symm, h1.2.2.2.1.trans h2.2.2.2.1.symm⟩
  by_cases hurl : (resolve c p).url = []
  · have h1 := Run_noURL c p chk env d hurl
    have h2 := Run_noURL c1 p1 chk env1 d (hu ▸ hurl)
    exact noRead _ _ h1 (Run_sent_of_no_read _ _ _ _ _ h1.2.2.1) h2
      (Run_sent_of_no_read _ _ _ _ _ h2.2.2.1)
  · cases chk with
    | transportError err =>
      have h1 := Run_transportError c p err env d
      have h2 := Run_transportError c1 p1 err env1 d
      exact noRead _ _ h1 (Run_sent_of_no_read _ _ _ _ _ h1.2.2.1) h2
        (Run_sent_of_no_read _ _ _ _ _ h2.2.2.1)
    | response code Status =>
      by_cases hcode : code = 200
      · subst hcode
        have h1 := Run_ok c p Status env d
        have h2 := Run_ok c1 p1 Status env1 d
        exact noRead _ _ h1 (Run_sent_of_no_read _ _ _ _ _ h1.2.2.1) h2
          (Run_sent_of_no_read _ _ _ _ _ h2.2.2.1)
      · have hf : (attach (resolve c p).logFileName d).toFile = false := by
          rcases h with h | ⟨st, h⟩ | h
          · exact absurd h hurl
          · cases h
            exact absurd rfl hcode
          · exact h
        have hf1 : (attach (resolve c1 p1).logFileName d).toFile = false := hn ▸ hf
        have hr := OpenFileRead_atRead_of_not_toFile c p Status env d hf
        have hr1 := OpenFileRead_atRead_of_not_toFile c1 p1 Status env1 d hf1
        rw [← hn] at hr1
        cases hx : OpenFileRead (resolve c p).logFileName d with
        | none =>
          rw [hx] at hr hr1
          rw [hn] at hr1
          have h1 := Run_unreadable c p code Status env d hurl hcode hr
          have h2 := Run_unreadable c1 p1 code Status env1 d (hu ▸ hurl) hcode hr1
          exact ⟨h1.1.trans h2.1.symm, h1.2.1.trans h2.2.1.symm,
            (Run_sent_of_no_read _ _ _ _ _ h1.2.2.1).trans
              (Run_sent_of_no_read _ _ _ _ _ h2.2.2.1).symm,
            h1.2.2.1.trans h2.2.2.1.symm, h1.2.2.2.1.trans h2.2.2.2.1.symm⟩
        | some data =>
          rw [hx] at hr hr1
          rw [hn] at hr1
          rw [Run_read c p code Status env d data hurl hcode hr,
            Run_read c1 p1 code Status env1 d data (hu ▸ hurl) hcode hr1]
          exact notify_congr _ _ _ _ _ _ data hs

/-- C9, amended, at a concrete input: the log of the counterexample, in a file
that may be read and may not be written, so that the open of line 94 fails;
with and without debug mode the run reads the same last line and decides
Suppressed. -/
theorem debug_keeps_decision_witness :
    ((∀ k, (resolve cmdDownDebug noConfig).get k = (resolve cmdDown noConfig).get k) ∧
      (resolve cmdDownDebug noConfig).debugMode = true ∧
      (resolve cmdDown noConfig).debugMode = false ∧
      (attach (resolve cmdDownDebug noConfig).logFileName
        (diskReadOnly "2024-01-01 - Down: http://x".toList)).toFile = false) ∧
    (Run cmdDownDebug noConfig status503 envOk
        (diskReadOnly "2024-01-01 - Down: http://x".toList)).decision = some .Suppressed ∧
    (Run cmdDownDebug noConfig status503 envOk
        (diskReadOnly "2024-01-01 - Down: http://x".toList)).decision =
      (Run cmdDown noConfig status503 envOk
        (diskReadOnly "2024-01-01 - Down: http://x".toList)).decision ∧
    (Run cmdDownDebug noConfig status503 envOk
        (diskReadOnly "2024-01-01 - Down: http://x".toList)).emails =
      (Run cmdDown noConfig status503 envOk
        (diskReadOnly "2024-01-01 - Down: http://x".toList)).emails ∧
    (Run cmdDownDebug noConfig status503 envOk
        (diskReadOnly "2024-01-01 - Down: http://x".toList)).sent =
      (Run cmdDown noConfig status503 envOk
        (diskReadOnly "2024-01-01 - Down: http://x".toList)).sent ∧
    (Run cmdDownDebug noConfig status503 envOk
        (diskReadOnly "2024-01-01 - Down: http://x".toList)).tail =
      (Run cmdDown noConfig status503 envOk
        (diskReadOnly "2024-01-01 - Down: http://x".toList)).tail ∧
    (Run cmdDownDebug noConfig status503 envOk
        (diskReadOnly "2024-01-01 - Down: http://x".toList)).panicked =
      (Run cmdDown noConfig status503 envOk
        (diskReadOnly "2024-01-01 - Down: http://x".toList)).panicked :=
  ⟨⟨fun k => by cases k <;> rfl, by decide, by decide, by decide⟩,
    by decide,
    debug_keeps_decision cmdDownDebug cmdDown noConfig noConfig status503 envOk envOk
      (diskReadOnly "2024-01-01 - Down: http://x".toList)
      (fun k => by cases k <;> rfl) (Or.inr (Or.inr (by decide)))⟩

/-- C10: when the merged subject is empty and the log file can be read, every
response whose status code is not 200 gives Suppressed, whatever the log
holds and whatever the other settings are: `sendEmail` is not called and the
run does not panic. -/
theorem empty_subject_suppressed (c : CommandLine) (p : ConfigFile) (code : Int) (Status : Str)
    (env : Env) (d : Disk) (hs : (resolve c p).subject = []) (hurl : (resolve c p).url ≠ [])
    (hcode : code ≠ 200) (hr : Readable (resolve c p).logFileName d) :
    (Run c p (.response code Status) env d).decision = some .Suppressed ∧
    (Run c p (.response code Status) env d).emails = [] ∧
    (Run c p (.response code Status) env d).panicked = false := by
  obtain ⟨data, hdata⟩ := (OpenFileRead_atRead_isSome c p Status env d).mpr hr
  rw [Run_read c p code Status env d data hurl hcode hdata]
  have hc : Contains (lastLine (readTail data)) (resolve c p).subject = true := by
    rw [hs]
    exact Contains_empty _
  exact ⟨(notify_suppressed _ _ _ _ hc).1, (notify_suppressed _ _ _ _ hc).2,
    (notify_finished _ _ _ _).1⟩

/-- C10 at a concrete input: no subject, status 503, a log whose last line is
`2024-01-01 - started`, all the other settings given. -/
theorem empty_subject_suppressed_witness :
    ((resolve cmdNoSubject noConfig).subject = [] ∧ (resolve cmdNoSubject noConfig).url ≠ [] ∧
      (503 : Int) ≠ 200 ∧
      Readable (resolve cmdNoSubject noConfig).logFileName
        (diskWith (some "2024-01-01 - started".toList))) ∧
    (Run cmdNoSubject noConfig status503 envOk
        (diskWith (some "2024-01-01 - started".toList))).decision = some .Suppressed ∧
    (Run cmdNoSubject noConfig status503 envOk
        (diskWith (some "2024-01-01 - started".toList))).emails = [] ∧
    (Run cmdNoSubject noConfig status503 envOk
        (diskWith (some "2024-01-01 - started".toList))).panicked = false :=
  ⟨⟨by decide, by decide, by decide, by decide⟩,
    empty_subject_suppressed cmdNoSubject noConfig 503 "503 Service Unavailable".toList envOk
      (diskWith (some "2024-01-01 - started".toList)) (by decide) (by decide) (by decide)
      (by decide)⟩

end Check
